import Mathlib

/-!
Shallow embedding of the smart-HTTP git server (`GitServer` class):
URL routing, POSIX path join/normalize, HTTP basic-auth parsing with
base64, the per-request acceptance gate, the paused request-body buffer,
the receive-pack tag sniffer, and the four request handlers.  Pure
functions mirror the source; I/O effects (filesystem access, subprocess
stdout, event-listener behaviour) are supplied as explicit oracles.
-/

namespace GitSrv

/-! ## JavaScript-style string splitting (`String.prototype.split` with a
single-character separator). -/

/-- Split a character list on a separator character; always returns a
non-empty list of (possibly empty) groups, like JS `split`. -/
def splitOnChar (sep : Char) : List Char → List (List Char)
  | [] => [[]]
  | c :: rest =>
    match splitOnChar sep rest with
    | [] => [[c]]
    | g :: gs => if c = sep then [] :: g :: gs else (c :: g) :: gs

/-- JS `s.split(sep)` for a one-character separator. -/
def jsSplit (sep : Char) (s : String) : List String :=
  (splitOnChar sep s.data).map String.mk

/-- Remove the first occurrence of `git-` from a character list. -/
def replaceFirstGitAux : List Char → List Char
  | [] => []
  | c :: rest =>
    if ('g' :: 'i' :: 't' :: '-' :: []).isPrefixOf (c :: rest) then
      (c :: rest).drop 4
    else
      c :: replaceFirstGitAux rest

/-- JS `s.replace('git-', '')`: remove the first occurrence of `git-`. -/
def replaceFirstGit (s : String) : String :=
  String.mk (replaceFirstGitAux s.data)

/-- JS `s.replace` with the anchored pattern `^git-` and an empty
replacement: strip a leading `git-` if present. -/
def stripGit (s : String) : String :=
  if "git-".data.isPrefixOf s.data then String.mk (s.data.drop 4) else s

/-- JS `version.replace(/\0+$/, '')`: strip trailing NUL characters. -/
def stripTrailingNul (s : String) : String :=
  String.mk (((s.data.reverse).dropWhile (fun c => c = '\x00')).reverse)

/-! ## Node `path.posix` `join` / `normalize` -/

/-- One step of Node's `normalizeString`: process one path segment
against the stack of kept segments (stack is reversed). -/
def normStep (abs : Bool) (stack : List String) (seg : String) : List String :=
  if seg = "" ∨ seg = "." then stack
  else if seg = ".." then
    match stack with
    | [] => if abs then [] else [".."]
    | top :: rest => if top = ".." then seg :: top :: rest else rest
  else seg :: stack

/-- Node `path.posix.normalize`. -/
def normalize (p : String) : String :=
  if p = "" then "." else
  let abs := p.data.head? == some '/'
  let trail := p.data.getLast? == some '/'
  let segs := ((jsSplit '/' p).foldl (normStep abs) []).reverse
  let core := String.intercalate "/" segs
  if core = "" then
    (if abs then "/" else if trail then "./" else ".")
  else
    (if abs then "/" ++ core else core) ++ (if trail then "/" else "")

/-- Node `path.posix.join(a, b)` (filters empty parts, then normalizes). -/
def joinPath (a b : String) : String :=
  let j := if a = "" then b else if b = "" then a else a ++ "/" ++ b
  if j = "" then "." else normalize j

/-! ## Route regex `^\/(.+?)\/(info\/refs|git-(?:upload|receive)-pack|HEAD)$` -/

def isAction (s : List Char) : Bool :=
  s = "info/refs".data ∨ s = "git-upload-pack".data ∨
  s = "git-receive-pack".data ∨ s = "HEAD".data

/-- Lazy scan for the repository-name capture: grow the name one
character at a time (`.` matches anything but a newline) and stop at the
first point where the remainder is `/<action>` exactly. -/
def routeAux (acc : List Char) : List Char → Option (String × String)
  | [] => none
  | c :: rest =>
    if c = '\n' then none
    else
      match rest with
      | '/' :: tail =>
        if isAction tail then some (String.mk (acc ++ [c]), String.mk tail)
        else routeAux (acc ++ [c]) rest
      | _ => routeAux (acc ++ [c]) rest

/-- Match the route regex against a pathname, returning the repository
name and action captures. -/
def routeMatch (path : String) : Option (String × String) :=
  match path.data with
  | '/' :: rest => routeAux [] rest
  | _ => none

/-! ## Base64 (Node `Buffer.from(s, 'base64').toString()`, lenient:
characters outside the alphabet, including padding, are skipped). -/

def b64alphabet : String :=
  "ABCDEFGHIJKLMNOPQRSTUVWXYZabcdefghijklmnopqrstuvwxyz0123456789+/"

/-- Value of a base64 alphabet character, `none` for other characters. -/
def b64val (c : Char) : Option Nat :=
  if 'A' ≤ c ∧ c ≤ 'Z' then some (c.toNat - 65)
  else if 'a' ≤ c ∧ c ≤ 'z' then some (c.toNat - 97 + 26)
  else if '0' ≤ c ∧ c ≤ '9' then some (c.toNat - 48 + 52)
  else if c = '+' then some 62
  else if c = '/' then some 63
  else none

def b64chr (n : Nat) : Char := b64alphabet.data.getD n 'A'

/-- Decode a list of sextet values into bytes (groups of four sextets
give three bytes; a trailing group of two or three gives one or two). -/
def b64bytes : List Nat → List Nat
  | a :: b :: c :: d :: rest =>
      (a * 4 + b / 16) :: ((b % 16) * 16 + c / 4) :: ((c % 4) * 64 + d) :: b64bytes rest
  | a :: b :: c :: [] => [a * 4 + b / 16, (b % 16) * 16 + c / 4]
  | a :: b :: [] => [a * 4 + b / 16]
  | _ => []

/-- Encode a list of bytes into sextet values. -/
def b64sextetsOf : List Nat → List Nat
  | a :: b :: c :: rest =>
      a / 4 :: ((a % 4) * 16 + b / 16) :: ((b % 16) * 4 + c / 64) :: c % 64 :: b64sextetsOf rest
  | a :: b :: [] => [a / 4, (a % 4) * 16 + b / 16, (b % 16) * 4]
  | a :: [] => [a / 4, (a % 4) * 16]
  | [] => []

/-- Node-style lenient base64 decoding of a string (bytes read back as
one character each; the development only uses single-byte text). -/
def b64decodeStr (s : String) : String :=
  String.mk ((b64bytes (s.data.filterMap b64val)).map Char.ofNat)

/-- Base64 encoding (used to build concrete `Authorization` headers). -/
def b64encodeStr (s : String) : String :=
  String.mk ((b64sextetsOf (s.data.map Char.toNat)).map b64chr)

/-! ## `parseBasicAuth` -/

/-- `parseBasicAuth`: extract `{username, password}` from the
`Authorization` header.  Mirrors the source: a missing header or a
malformed one (first space-separated part not `Basic`, or missing/empty
second part) yields empty credentials; otherwise the base64-decoded
credential string is destructured as `[username, password] =
decoded.split(':')`. -/
def parseBasicAuth (authHeader : Option String) : Option String × Option String :=
  match authHeader with
  | none => (none, none)
  | some h =>
    let parts := jsSplit ' ' h
    if parts.get? 0 ≠ some "Basic" ∨ parts.get? 1 = none ∨ parts.get? 1 = some "" then
      (none, none)
    else
      let decoded := b64decodeStr ((parts.get? 1).getD "")
      let fields := jsSplit ':' decoded
      (fields.get? 0, fields.get? 1)

/-! ## Server options and `authenticate` -/

inductive OpType
  | push
  | fetch
deriving DecidableEq, Repr

/-- `getOperationType` from the source. -/
def getOperationType (gitServiceName : String) : OpType :=
  if gitServiceName = "receive-pack" then .push else .fetch

/-- The caller-provided authenticator: resolves (`Except.ok`) or throws
(`Except.error message`). -/
abbrev Authenticator := OpType → String → Option String → Option String → Except String Unit

structure GitServerOptions where
  autoCreate : Bool
  authenticate : Option Authenticator

/-- The `authenticate` method: succeeds when no authenticator is
configured, otherwise parses basic-auth credentials and invokes the
callback.  The result records whether the `WWW-Authenticate` header was
set (the source sets it just before rethrowing the callback error). -/
def runAuthenticate (opts : GitServerOptions) (authHeader : Option String)
    (operationType : OpType) (repositoryName : String) : Except String Unit :=
  match opts.authenticate with
  | none => .ok ()
  | some f =>
    let cred := parseBasicAuth authHeader
    f operationType repositoryName cred.1 cred.2

/-! ## The acceptance gate -/

inductive GateCall
  | accept
  | reject (message : String)
deriving DecidableEq, Repr

inductive GateStatus
  | pending
  | accepted
  | rejected
deriving DecidableEq, Repr

/-- Mirrors the pair of booleans `accepted` / `rejected` captured by
each handler's closures. -/
structure GateFlags where
  accepted : Bool
  rejected : Bool
deriving DecidableEq, Repr

def gateInit : GateFlags := ⟨false, false⟩

def GateFlags.status (g : GateFlags) : GateStatus :=
  if g.accepted then .accepted else if g.rejected then .rejected else .pending

/-- One `accept()` / `reject(m)` call on the flags: the body runs only
when neither terminal flag is set (`if (accepted || rejected) return`). -/
def gateStep (g : GateFlags) (c : GateCall) : GateFlags :=
  if g.accepted || g.rejected then g
  else
    match c with
    | .accept => ⟨true, g.rejected⟩
    | .reject _ => ⟨g.accepted, true⟩

/-- Run a sequence of `accept`/`reject` calls against the gate flags
and the response slot.  `onAccept` / `onReject` are the bodies of the
closures `handleAccept` / `handleReject` of the enclosing handler: each
call first checks the flags, and, when still pending, sets its flag and
produces its observable outcome. -/
def gateRun {α : Type} (onAccept : α) (onReject : String → α) :
    List GateCall → GateFlags × Option α → GateFlags × Option α
  | [], s => s
  | c :: cs, s =>
    if s.1.accepted || s.1.rejected then gateRun onAccept onReject cs s
    else
      gateRun onAccept onReject cs
        (gateStep s.1 c,
         some (match c with
               | .accept => onAccept
               | .reject m => onReject m))

/-! ## The paused request-body buffer (`PassThrough` + `pause`/`resume`) -/

structure PipeState where
  buffered : List String
  delivered : List String
  resumed : Bool
deriving Repr

def pipeInit : PipeState := ⟨[], [], false⟩

/-- A request `data` chunk arrives: queued while paused, forwarded once
flowing. -/
def pipeData (s : PipeState) (c : String) : PipeState :=
  if s.resumed then { s with delivered := s.delivered ++ [c] }
  else { s with buffered := s.buffered ++ [c] }

/-- `buffered.pipe(gitProcess.stdin); buffered.resume()`: flush the
queued chunks in order and switch to flowing mode. -/
def pipeResume (s : PipeState) : PipeState :=
  { buffered := [], delivered := s.delivered ++ s.buffered, resumed := true }

/-- Chunks `pre` arrive before `accept()` fires, chunks `post` after. -/
def runPipe (pre post : List String) : PipeState :=
  post.foldl pipeData (pipeResume (pre.foldl pipeData pipeInit))

/-- The byte stream a run delivers to the subprocess stdin. -/
def PipeState.stdinData (s : PipeState) : String :=
  String.join s.delivered

/-! ## Tag sniffer

Faithful model of the JS regex
`([0-9a-fA-F]+) ([0-9a-fA-F]+) refs\x2ftags\x2f(.*?)(?:[ ]|00)` applied
globally to each request-body chunk.  The lazy `.*?` group grows one
non-newline character at a time until either a space or the literal
two-character substring `00` terminates the match. -/

def isHexDigit (c : Char) : Bool :=
  c.isDigit ∨ ('a' ≤ c ∧ c ≤ 'f') ∨ ('A' ≤ c ∧ c ≤ 'F')

/-- Lazy scan for the version capture: stop (capturing the prefix read
so far) at the first space or at the first literal `00`; `.` cannot
cross a newline, and reaching the end without a terminator fails. -/
def lazyScan : List Char → Option (List Char × List Char)
  | [] => none
  | c :: rest =>
    if c = ' ' then some ([], rest)
    else if c = '0' ∧ rest.head? = some '0' then some ([], rest.tail)
    else if c = '\n' then none
    else
      match lazyScan rest with
      | none => none
      | some (v, r) => some (c :: v, r)

/-- Consume one expected character. -/
def expectChar (c : Char) : List Char → Option (List Char)
  | x :: rest => if x = c then some rest else none
  | [] => none

/-- Try to match the tag regex at the start of the list, returning the
three captures and the remainder after the matched substring: a
non-empty greedy hex run, a space, a second non-empty greedy hex run, a
space, the literal `refs/tags/`, then the lazy version capture up to
its terminator. -/
def tryMatchAt (s : List Char) : Option (String × String × String × List Char) :=
  if s.takeWhile isHexDigit = [] then none else
  (expectChar ' ' (s.dropWhile isHexDigit)).bind fun r2 =>
    if r2.takeWhile isHexDigit = [] then none else
    (expectChar ' ' (r2.dropWhile isHexDigit)).bind fun r4 =>
      if "refs/tags/".data.isPrefixOf r4 then
        (lazyScan (r4.drop 10)).bind fun vr =>
          some (String.mk (s.takeWhile isHexDigit),
                String.mk (r2.takeWhile isHexDigit), String.mk vr.1, vr.2)
      else none

/-- Global leftmost matching: attempt a match at each position, restart
after each matched substring.  Fuel is the remaining string length. -/
def searchTagsAux : Nat → List Char → List (String × String × String)
  | 0, _ => []
  | fuel + 1, s =>
    match tryMatchAt s with
    | some (o, n, v, rest) => (o, n, v) :: searchTagsAux fuel rest
    | none =>
      match s with
      | [] => []
      | _ :: t => searchTagsAux fuel t

/-- All matches of the tag regex in one chunk, in order. -/
def findTagMatches (data : String) : List (String × String × String) :=
  searchTagsAux data.data.length data.data

/-- Side condition for reasoning about the lazy scan: no two adjacent
`0` characters (which would terminate the version capture early). -/
def noDoubleZero : List Char → Bool
  | a :: b :: rest => (!(a == '0' && b == '0')) && noDoubleZero (b :: rest)
  | _ => true

structure TagInfo where
  repo : String
  commit : String
  version : String
deriving DecidableEq, Repr

/-- Per-chunk tag detection: for each match whose three captures are all
non-empty (JS truthiness), emit a `tag` event with `commit` the second
hex field and `version` stripped of trailing NULs. -/
def sniffChunk (repositoryName : String) (chunk : String) : List TagInfo :=
  (findTagMatches chunk).filterMap fun m =>
    if m.1 ≠ "" ∧ m.2.1 ≠ "" ∧ m.2.2 ≠ "" then
      some ⟨repositoryName, m.2.1, stripTrailingNul m.2.2⟩
    else none

/-- The sniffer clears its accumulator after every chunk (`data = ''`),
so each chunk is scanned independently. -/
def sniffTagsChunks (repositoryName : String) (chunks : List String) : List TagInfo :=
  (chunks.map (sniffChunk repositoryName)).flatten

/-- The tag descriptor's `accept` callback: a no-op producing no
events. -/
def tagAcceptEvents : List String := []

/-- The tag descriptor's `reject` callback: only emits an `error` event;
it does not touch the gate or the response. -/
def tagRejectEvents (message : String) : List String :=
  ["Tag rejected: " ++ message]

/-! ## Responses, spawns and the four handlers -/

structure Response where
  status : Nat
  contentType : Option String
  wwwAuth : Bool
  noCacheHdrs : Bool
  body : String
deriving DecidableEq, Repr

inductive Spawn
  | advertise (serviceName path : String)
  | rpc (serviceName path : String)
  | initBare (path : String)
deriving DecidableEq, Repr

structure HandlerResult where
  response : Option Response
  spawned : List Spawn
  stdinData : Option String
  tags : List TagInfo
deriving DecidableEq, Repr

/-- Per-request oracles: request data and the outcomes of the request's
suspension points (filesystem, subprocess stdout, listener registry and
the gate calls the listeners make, body chunks before/after accept). -/
structure RequestEnv where
  authHeader : Option String
  serviceQuery : Option String
  fsAccess : String → Bool
  createOk : Bool
  advertStdout : String
  rpcStdout : String
  infoListeners : Nat
  typeListeners : Nat
  headListeners : Nat
  gateCalls : List GateCall
  preChunks : List String
  postChunks : List String

/-- `n.toString(16)` for natural numbers. -/
def toHexStr (n : Nat) : String := String.mk (Nat.toDigits 16 n)

/-- JS `padStart(4, '0')`. -/
def padStart4 (s : String) : String :=
  if 4 ≤ s.length then s
  else String.mk (List.replicate (4 - s.length) '0') ++ s

/-- The pkt-line banner written on an accepted advertisement:
`<4-hex length><packet>0000`. -/
def pktBanner (gitServiceName : String) : String :=
  let packet := "# service=git-" ++ gitServiceName ++ "\n"
  padStart4 (toHexStr (packet.length + 4)) ++ packet ++ "0000"

def notFoundRepo : HandlerResult :=
  { response := some ⟨404, none, false, false, "Repository not found"⟩
    spawned := [], stdinData := none, tags := [] }

/-- `handleInfoRefs`: service-parameter validation, authentication,
existence / auto-create, then the acceptance gate; on accept the
banner is written and `git <svc> --stateless-rpc --advertise-refs` is
spawned with its stdout appended to the response. -/
def handleInfoRefs (opts : GitServerOptions) (env : RequestEnv)
    (repositoryName repositoryPath : String) : HandlerResult :=
  match env.serviceQuery with
  | none =>
    { response := some ⟨400, some "text/plain", false, false, "service parameter required"⟩
      spawned := [], stdinData := none, tags := [] }
  | some service =>
    let gitServiceName := stripGit service
    if gitServiceName ≠ "upload-pack" ∧ gitServiceName ≠ "receive-pack" then
      { response := some ⟨400, some "text/plain", false, false, "Invalid service"⟩
        spawned := [], stdinData := none, tags := [] }
    else
      let operationType := getOperationType gitServiceName
      match runAuthenticate opts env.authHeader operationType repositoryName with
      | .error _ =>
        { response := some ⟨401, some "text/plain", true, false, "Authentication failed"⟩
          spawned := [], stdinData := none, tags := [] }
      | .ok _ =>
        let exists0 := env.fsAccess repositoryPath
        if ¬ exists0 ∧ ¬ opts.autoCreate then notFoundRepo
        else if ¬ exists0 ∧ ¬ env.createOk then
          -- `createRepo` threw: the rejection propagates and no
          -- response is written by this handler.
          { response := none, spawned := [Spawn.initBare repositoryPath]
            stdinData := none, tags := [] }
        else
          let createSpawns := if exists0 then [] else [Spawn.initBare repositoryPath]
          let acceptOut : Response × List Spawn :=
            (⟨200, some ("application/x-git-" ++ gitServiceName ++ "-advertisement"),
              false, true, pktBanner gitServiceName ++ env.advertStdout⟩,
             [Spawn.advertise gitServiceName repositoryPath])
          let rejectOut : String → Response × List Spawn := fun m =>
            (⟨403, some "text/plain", false, false, m⟩, [])
          let effectiveCalls :=
            if env.infoListeners = 0 ∧ env.typeListeners = 0 then [GateCall.accept]
            else env.gateCalls
          match (gateRun acceptOut rejectOut effectiveCalls (gateInit, none)).2 with
          | some (r, sp) =>
            { response := some r, spawned := createSpawns ++ sp
              stdinData := none, tags := [] }
          | none =>
            { response := none, spawned := createSpawns, stdinData := none, tags := [] }

/-- `handleService`: authentication, existence check, then the paused
body buffer is installed before the event is emitted; on accept the
subprocess is spawned, the buffer is resumed into its stdin, and for
pushes the tag sniffer watches the remaining request chunks. -/
def handleService (opts : GitServerOptions) (env : RequestEnv)
    (repositoryName repositoryPath action : String) : HandlerResult :=
  let gitServiceName := replaceFirstGit action
  let operationType := getOperationType gitServiceName
  match runAuthenticate opts env.authHeader operationType repositoryName with
  | .error _ =>
    { response := some ⟨401, some "text/plain", true, false, "Authentication failed"⟩
      spawned := [], stdinData := none, tags := [] }
  | .ok _ =>
    if ¬ env.fsAccess repositoryPath then notFoundRepo
    else
      let acceptOut : HandlerResult :=
        { response := some ⟨200, some ("application/x-git-" ++ gitServiceName ++ "-result"),
            false, true, env.rpcStdout⟩
          spawned := [Spawn.rpc gitServiceName repositoryPath]
          stdinData := some (runPipe env.preChunks env.postChunks).stdinData
          tags := if operationType = .push then sniffTagsChunks repositoryName env.postChunks
                  else [] }
      let rejectOut : String → HandlerResult := fun m =>
        { response := some ⟨500, some "text/plain", false, false, m⟩
          spawned := [], stdinData := none, tags := [] }
      let effectiveCalls :=
        if env.typeListeners = 0 then [GateCall.accept] else env.gateCalls
      match (gateRun acceptOut rejectOut effectiveCalls (gateInit, none)).2 with
      | some r => r
      | none => { response := none, spawned := [], stdinData := none, tags := [] }

/-- `handleHead`: existence check, then the gate on the `head` event;
no authentication is performed on this path. -/
def handleHead (env : RequestEnv)
    (repositoryName repositoryPath : String) : HandlerResult :=
  if ¬ env.fsAccess repositoryPath then notFoundRepo
  else
    let acceptOut : Response := ⟨200, some "text/plain", false, true, ""⟩
    let rejectOut : String → Response := fun m => ⟨403, some "text/plain", false, false, m⟩
    let effectiveCalls :=
      if env.headListeners = 0 then [GateCall.accept] else env.gateCalls
    match (gateRun acceptOut rejectOut effectiveCalls (gateInit, none)).2 with
    | some r => { response := some r, spawned := [], stdinData := none, tags := [] }
    | none => { response := none, spawned := [], stdinData := none, tags := [] }

/-- `handleRequest`: route the pathname, compute
`normalize(join(repositoryDirectory, repositoryName))`, dispatch. -/
def handleRequest (repositoryDirectory : String) (opts : GitServerOptions)
    (env : RequestEnv) (pathname : String) : HandlerResult :=
  match routeMatch pathname with
  | none =>
    { response := some ⟨404, none, false, false, "Not Found"⟩
      spawned := [], stdinData := none, tags := [] }
  | some (repositoryName, action) =>
    let repositoryPath := normalize (joinPath repositoryDirectory repositoryName)
    if action = "HEAD" then handleHead env repositoryName repositoryPath
    else if action = "info/refs" then handleInfoRefs opts env repositoryName repositoryPath
    else handleService opts env repositoryName repositoryPath action

/-! ## Supporting lemmas -/

/-- A default request environment: no `Authorization` header, a
`service=git-upload-pack` query, every path accessible, no listeners,
no gate calls, empty bodies and empty subprocess outputs. -/
def baseEnv : RequestEnv :=
  { authHeader := none
    serviceQuery := some "git-upload-pack"
    fsAccess := fun _ => true
    createOk := true
    advertStdout := ""
    rpcStdout := ""
    infoListeners := 0
    typeListeners := 0
    headListeners := 0
    gateCalls := []
    preChunks := []
    postChunks := [] }

theorem foldl_pipeData_paused (pre : List String) : ∀ buf del : List String,
    pre.foldl pipeData ⟨buf, del, false⟩ = ⟨buf ++ pre, del, false⟩ := by
  induction pre with
  | nil => intro buf del; simp
  | cons c cs ih =>
    intro buf del
    have h1 : pipeData ⟨buf, del, false⟩ c = ⟨buf ++ [c], del, false⟩ := rfl
    rw [List.foldl_cons, h1, ih]
    simp

theorem foldl_pipeData_flowing (post : List String) : ∀ del : List String,
    post.foldl pipeData ⟨[], del, true⟩ = ⟨[], del ++ post, true⟩ := by
  induction post with
  | nil => intro del; simp
  | cons c cs ih =>
    intro del
    have h1 : pipeData ⟨[], del, true⟩ c = ⟨[], del ++ [c], true⟩ := rfl
    rw [List.foldl_cons, h1, ih]
    simp

theorem runPipe_stdinData (pre post : List String) :
    (runPipe pre post).stdinData = String.join (pre ++ post) := by
  unfold runPipe pipeInit
  rw [foldl_pipeData_paused]
  have h2 : pipeResume ⟨[] ++ pre, [], false⟩ = ⟨[], pre, true⟩ := by
    simp [pipeResume]
  rw [h2, foldl_pipeData_flowing]
  rfl

theorem gateRun_terminal {α : Type} (onA : α) (onR : String → α)
    (cs : List GateCall) : ∀ (g : GateFlags) (out : Option α),
    (g.accepted || g.rejected) = true → gateRun onA onR cs (g, out) = (g, out) := by
  induction cs with
  | nil => intro g out _; rfl
  | cons c cs ih =>
    intro g out h
    simp only [gateRun, h]
    exact ih g out h

/-! ## Claim theorems -/

/-- C1 (evaluation at the failing input): the request
`GET /../info/refs?service=git-upload-pack` against root `/srv/repos`
matches the route regex with repository name `..`; the computed
repository path `normalize(join("/srv/repos", ".."))` is `/srv`, which
does not have the root as a prefix; yet the server does not respond
`404` — with the path accessible it answers `200` and spawns
`git upload-pack --stateless-rpc --advertise-refs /srv`, i.e. on a path
outside the configured root. -/
theorem c1_escape_evaluation :
    routeMatch "/../info/refs" = some ("..", "info/refs")
    ∧ normalize (joinPath "/srv/repos" "..") = "/srv"
    ∧ ("/srv/repos".data.isPrefixOf "/srv".data) = false
    ∧ (handleRequest "/srv/repos" ⟨false, none⟩ baseEnv "/../info/refs").response
      = some ⟨200, some "application/x-git-upload-pack-advertisement", false, true,
              "001e# service=git-upload-pack\n0000"⟩
    ∧ (handleRequest "/srv/repos" ⟨false, none⟩ baseEnv "/../info/refs").spawned
      = [Spawn.advertise "upload-pack" "/srv"] :=
  ⟨rfl, rfl, rfl, rfl, rfl⟩

/-- C2: for a POST RPC request whose body arrives as chunks `pre`
before `accept()` fires and `post` after, the paused intermediary
buffer preserves every byte: the subprocess stdin receives exactly the
whole body, in order — both for the buffer model itself and through
`handleService` on an accepted `git-receive-pack` request. -/
theorem c2_rpc_body_preserved (pre post : List String)
    (repositoryName repositoryPath : String) :
    (runPipe pre post).stdinData = String.join (pre ++ post)
    ∧ (handleService ⟨false, none⟩
        { baseEnv with preChunks := pre, postChunks := post }
        repositoryName repositoryPath "git-receive-pack").stdinData
      = some (String.join (pre ++ post)) := by
  refine ⟨runPipe_stdinData pre post, ?_⟩
  have h : (handleService ⟨false, none⟩
      { baseEnv with preChunks := pre, postChunks := post }
      repositoryName repositoryPath "git-receive-pack").stdinData
      = some ((runPipe pre post).stdinData) := rfl
  rw [h, runPipe_stdinData]

/-- C3: the acceptance gate starts `PENDING`; `accept()` moves it to
`ACCEPTED` from `PENDING` and `reject(m)` to `REJECTED` from `PENDING`;
any call in a non-pending state is silently ignored (and in particular
any call after the first), so in a run of calls only the first call's
outcome is observable. -/
theorem c3_gate_state_machine {α : Type} (onAccept : α) (onReject : String → α)
    (g : GateFlags) (c c2 : GateCall) (cs : List GateCall) (m : String)
    (h : g.status ≠ .pending) :
    gateInit.status = .pending
    ∧ (gateStep gateInit .accept).status = .accepted
    ∧ (gateStep gateInit (.reject m)).status = .rejected
    ∧ gateStep g c = g
    ∧ gateStep (gateStep gateInit c) c2 = gateStep gateInit c
    ∧ gateRun onAccept onReject (c :: cs) (gateInit, none)
      = gateRun onAccept onReject [c] (gateInit, none) := by
  refine ⟨rfl, rfl, rfl, ?_, ?_, ?_⟩
  · rcases g with ⟨a, r⟩
    cases a <;> cases r <;> simp_all [GateFlags.status, gateStep]
  · cases c <;> cases c2 <;> rfl
  · cases c with
    | accept =>
      show gateRun onAccept onReject cs (⟨true, false⟩, some onAccept)
        = gateRun onAccept onReject [] (⟨true, false⟩, some onAccept)
      rw [gateRun_terminal onAccept onReject cs ⟨true, false⟩ (some onAccept) rfl]
      rfl
    | reject msg =>
      show gateRun onAccept onReject cs (⟨false, true⟩, some (onReject msg))
        = gateRun onAccept onReject [] (⟨false, true⟩, some (onReject msg))
      rw [gateRun_terminal onAccept onReject cs ⟨false, true⟩ (some (onReject msg)) rfl]
      rfl

/-- Witness for C3 at a concrete instantiation. -/
theorem c3_gate_state_machine_witness :
    gateInit.status = .pending
    ∧ (gateStep gateInit .accept).status = .accepted
    ∧ (gateStep gateInit (.reject "m")).status = .rejected
    ∧ gateStep ⟨true, false⟩ .accept = ⟨true, false⟩
    ∧ gateStep (gateStep gateInit .accept) (.reject "x") = gateStep gateInit .accept
    ∧ gateRun true (fun _ => false) [.accept, .accept] (gateInit, none)
      = gateRun true (fun _ => false) [.accept] (gateInit, none) :=
  c3_gate_state_machine true (fun _ => false) ⟨true, false⟩ .accept (.reject "x")
    [.accept] "m" (by decide)

/-- C5: a gate rejected with message `m` yields `403` with `text/plain`
body `m` on the advertisement (`info/refs`) and `HEAD` paths, and `500`
with body `m` on the RPC (`git-*-pack`) path. -/
theorem c5_reject_responses (m repositoryName repositoryPath : String) :
    (handleInfoRefs ⟨false, none⟩
        { baseEnv with infoListeners := 1, typeListeners := 1,
                       gateCalls := [.reject m] }
        repositoryName repositoryPath).response
      = some ⟨403, some "text/plain", false, false, m⟩
    ∧ (handleHead
        { baseEnv with headListeners := 1, gateCalls := [.reject m] }
        repositoryName repositoryPath).response
      = some ⟨403, some "text/plain", false, false, m⟩
    ∧ (handleService ⟨false, none⟩
        { baseEnv with typeListeners := 1, gateCalls := [.reject m] }
        repositoryName repositoryPath "git-upload-pack").response
      = some ⟨500, some "text/plain", false, false, m⟩ :=
  ⟨rfl, rfl, rfl⟩

/-- C7 counterexample: the claim says any `service` value other than
`git-upload-pack` / `git-receive-pack` is answered `400 Invalid
service`, but the code strips an optional `git-` prefix before
validating, so the value `upload-pack` — which is neither of the two —
is accepted and served a `200` advertisement. -/
theorem c7_counterexample :
    (handleInfoRefs ⟨false, none⟩
        { baseEnv with serviceQuery := some "upload-pack" }
        "r1" "/srv/repos/r1").response
      = some ⟨200, some "application/x-git-upload-pack-advertisement", false, true,
              "001e# service=git-upload-pack\n0000"⟩
    ∧ ("upload-pack" : String) ≠ "git-upload-pack"
    ∧ ("upload-pack" : String) ≠ "git-receive-pack" :=
  ⟨rfl, by decide, by decide⟩

/-- C7 amended: a missing `service` parameter is answered `400`
`service parameter required`; a present value is answered `400 Invalid
service` exactly when the value with an optional leading `git-`
stripped is neither `upload-pack` nor `receive-pack`. -/
theorem c7_amended (sv repositoryName repositoryPath : String) :
    (handleInfoRefs ⟨false, none⟩ { baseEnv with serviceQuery := none }
        repositoryName repositoryPath).response
      = some ⟨400, some "text/plain", false, false, "service parameter required"⟩
    ∧ ((handleInfoRefs ⟨false, none⟩ { baseEnv with serviceQuery := some sv }
        repositoryName repositoryPath).response
        = some ⟨400, some "text/plain", false, false, "Invalid service"⟩
      ↔ (stripGit sv ≠ "upload-pack" ∧ stripGit sv ≠ "receive-pack")) := by
  refine ⟨rfl, ?_⟩
  by_cases h : stripGit sv ≠ "upload-pack" ∧ stripGit sv ≠ "receive-pack"
  · simp [handleInfoRefs, h]
  · push_neg at h
    by_cases h1 : stripGit sv = "upload-pack"
    · simp [handleInfoRefs, h1, baseEnv, runAuthenticate, getOperationType,
        gateRun, gateStep, gateInit, pktBanner, notFoundRepo]
    · have h2 : stripGit sv = "receive-pack" := h h1
      simp [handleInfoRefs, h2, baseEnv, runAuthenticate, getOperationType,
        gateRun, gateStep, gateInit, pktBanner, notFoundRepo]

/-- C8: an accepted advertisement response body begins with the
four-hex-digit zero-padded length prefix of the packet
`# service=git-<svc>\n` (payload length plus four), then the packet,
then the flush packet `0000`, and only then the subprocess stdout. -/
theorem c8_advertisement_banner (svc stdout repositoryName repositoryPath : String)
    (h : svc = "upload-pack" ∨ svc = "receive-pack") :
    (handleInfoRefs ⟨false, none⟩
        { baseEnv with serviceQuery := some ("git-" ++ svc),
                       advertStdout := stdout }
        repositoryName repositoryPath).response
      = some ⟨200, some ("application/x-git-" ++ svc ++ "-advertisement"), false, true,
              padStart4 (toHexStr (("# service=git-" ++ svc ++ "\n").length + 4))
                ++ ("# service=git-" ++ svc ++ "\n") ++ "0000" ++ stdout⟩
    ∧ (padStart4 (toHexStr (("# service=git-" ++ svc ++ "\n").length + 4))).length = 4 := by
  rcases h with h | h <;> subst h <;> exact ⟨rfl, rfl⟩

/-- Witness for C8 at `svc := upload-pack`. -/
theorem c8_advertisement_banner_witness :
    (handleInfoRefs ⟨false, none⟩
        { baseEnv with serviceQuery := some "git-upload-pack",
                       advertStdout := "REFS" }
        "r1" "/srv/repos/r1").response
      = some ⟨200, some "application/x-git-upload-pack-advertisement", false, true,
              "001e# service=git-upload-pack\n0000REFS"⟩
    ∧ (padStart4 (toHexStr (("# service=git-upload-pack\n").length + 4))).length = 4 :=
  c8_advertisement_banner "upload-pack" "REFS" "r1" "/srv/repos/r1" (Or.inl rfl)

/-- C9: with zero listeners registered for the emitted event(s), the
gate auto-accepts immediately, and the request completes exactly as if
a listener had called `accept()` — for the RPC, advertisement and HEAD
handlers alike. -/
theorem c9_auto_accept (opts : GitServerOptions) (env : RequestEnv)
    (repositoryName repositoryPath action : String) :
    handleService opts { env with typeListeners := 0 }
        repositoryName repositoryPath action
      = handleService opts { env with typeListeners := 1, gateCalls := [.accept] }
        repositoryName repositoryPath action
    ∧ handleInfoRefs opts { env with infoListeners := 0, typeListeners := 0 }
        repositoryName repositoryPath
      = handleInfoRefs opts
        { env with infoListeners := 1, typeListeners := 1, gateCalls := [.accept] }
        repositoryName repositoryPath
    ∧ handleHead { env with headListeners := 0 } repositoryName repositoryPath
      = handleHead { env with headListeners := 1, gateCalls := [.accept] }
        repositoryName repositoryPath :=
  ⟨rfl, rfl, rfl⟩

/-- C10: the HEAD handler never consults the configured authenticator:
for a pathname routed to the `HEAD` action, the server's result is
identical between a configuration with any (e.g. always-failing)
authenticator and one with none. -/
theorem c10_head_ignores_authenticator (repositoryDirectory : String)
    (auth : Authenticator) (autoCreate1 autoCreate2 : Bool) (env : RequestEnv)
    (pathname repositoryName : String)
    (h : routeMatch pathname = some (repositoryName, "HEAD")) :
    handleRequest repositoryDirectory ⟨autoCreate1, some auth⟩ env pathname
      = handleRequest repositoryDirectory ⟨autoCreate2, none⟩ env pathname := by
  unfold handleRequest
  rw [h]
  rfl

/-- Witness for C10 at the concrete request `GET /r/HEAD` with an
always-failing authenticator. -/
theorem c10_head_ignores_authenticator_witness :
    handleRequest "/repos" ⟨true, some (fun _ _ _ _ => Except.error "denied")⟩
        baseEnv "/r/HEAD"
      = handleRequest "/repos" ⟨false, none⟩ baseEnv "/r/HEAD" :=
  c10_head_ignores_authenticator "/repos" (fun _ _ _ _ => Except.error "denied")
    true false baseEnv "/r/HEAD" "r" (by decide)

/-! ## Lemmas for basic-auth credential extraction (C4) -/

theorem splitOnChar_ne_nil (sep : Char) (ys : List Char) :
    splitOnChar sep ys ≠ [] := by
  cases ys with
  | nil => simp [splitOnChar]
  | cons c cs =>
    rw [splitOnChar]
    rcases h : splitOnChar sep cs with _ | ⟨g, gs⟩
    · simp
    · by_cases hc : c = sep <;> simp [hc]

theorem splitOnChar_no_sep (sep : Char) (xs : List Char) (h : sep ∉ xs) :
    splitOnChar sep xs = [xs] := by
  induction xs with
  | nil => rfl
  | cons c cs ih =>
    have hc : c ≠ sep := fun e => h (e ▸ List.mem_cons_self c cs)
    rw [splitOnChar, ih (fun hm => h (List.mem_cons_of_mem c hm))]
    simp [hc]

theorem splitOnChar_append (sep : Char) (xs ys : List Char) (h : sep ∉ xs) :
    splitOnChar sep (xs ++ sep :: ys) = xs :: splitOnChar sep ys := by
  induction xs with
  | nil =>
    simp only [List.nil_append]
    rw [splitOnChar]
    rcases hsp : splitOnChar sep ys with _ | ⟨g, gs⟩
    · exact absurd hsp (splitOnChar_ne_nil sep ys)
    · simp
  | cons c cs ih =>
    have hc : c ≠ sep := fun e => h (e ▸ List.mem_cons_self c cs)
    rw [List.cons_append, splitOnChar, ih (fun hm => h (List.mem_cons_of_mem c hm))]
    simp [hc]

theorem b64bytes_sextetsOf : ∀ l : List Nat, (∀ x ∈ l, x < 256) →
    b64bytes (b64sextetsOf l) = l
  | [], _ => rfl
  | [a], h => by
    have ha : a < 256 := h a (by simp)
    simp only [b64sextetsOf, b64bytes, List.cons.injEq, and_true]
    omega
  | [a, b], h => by
    have ha : a < 256 := h a (by simp)
    have hb : b < 256 := h b (by simp)
    simp only [b64sextetsOf, b64bytes, List.cons.injEq, and_true]
    omega
  | a :: b :: c :: rest, h => by
    have ha : a < 256 := h a (by simp)
    have hb : b < 256 := h b (by simp)
    have hc : c < 256 := h c (by simp)
    have ih := b64bytes_sextetsOf rest (fun x hx => h x (by simp [hx]))
    simp only [b64sextetsOf, b64bytes, ih, List.cons.injEq, and_true]
    omega

theorem sextetsOf_lt : ∀ l : List Nat, (∀ x ∈ l, x < 256) →
    ∀ y ∈ b64sextetsOf l, y < 64
  | [], _ => by simp [b64sextetsOf]
  | [a], h => by
    have ha : a < 256 := h a (by simp)
    intro y hy
    simp only [b64sextetsOf, List.mem_cons, List.not_mem_nil, or_false] at hy
    rcases hy with hy | hy <;> omega
  | [a, b], h => by
    have ha : a < 256 := h a (by simp)
    have hb : b < 256 := h b (by simp)
    intro y hy
    simp only [b64sextetsOf, List.mem_cons, List.not_mem_nil, or_false] at hy
    rcases hy with hy | hy | hy <;> omega
  | a :: b :: c :: rest, h => by
    have ha : a < 256 := h a (by simp)
    have hb : b < 256 := h b (by simp)
    have hc : c < 256 := h c (by simp)
    have ih := sextetsOf_lt rest (fun x hx => h x (by simp [hx]))
    intro y hy
    simp only [b64sextetsOf, List.mem_cons] at hy
    rcases hy with hy | hy | hy | hy | hy
    · omega
    · omega
    · omega
    · omega
    · exact ih y hy

theorem b64val_b64chr (n : Nat) (h : n < 64) : b64val (b64chr n) = some n := by
  have H : ∀ m ∈ List.range 64, b64val (b64chr m) = some m := by decide
  exact H n (List.mem_range.mpr h)

theorem filterMap_b64val_encode (l : List Nat) (h : ∀ y ∈ l, y < 64) :
    (l.map b64chr).filterMap b64val = l := by
  induction l with
  | nil => rfl
  | cons y ys ih =>
    rw [List.map_cons, List.filterMap_cons, b64val_b64chr y (h y (by simp)),
      ih (fun z hz => h z (by simp [hz]))]

theorem b64decode_encode (s : String) (h : ∀ c ∈ s.data, c.toNat < 256) :
    b64decodeStr (b64encodeStr s) = s := by
  unfold b64decodeStr b64encodeStr
  have hb : ∀ x ∈ s.data.map Char.toNat, x < 256 := by
    intro x hx
    rcases List.mem_map.mp hx with ⟨c, hc, rfl⟩
    exact h c hc
  show String.mk (List.map Char.ofNat (b64bytes (List.filterMap b64val
    (List.map b64chr (b64sextetsOf (s.data.map Char.toNat)))))) = s
  rw [filterMap_b64val_encode _ (sextetsOf_lt _ hb), b64bytes_sextetsOf _ hb,
    List.map_map]
  have h2 : ∀ c ∈ s.data, (Char.ofNat ∘ Char.toNat) c = c := by
    intro c _
    exact Char.ofNat_toNat c
  rw [List.map_congr_left h2]
  simp

theorem b64chr_ne_space (n : Nat) : b64chr n ≠ ' ' := by
  by_cases h : n < 64
  · intro e
    have h1 := b64val_b64chr n h
    rw [e] at h1
    have h2 : b64val ' ' = none := by decide
    rw [h2] at h1
    exact Option.noConfusion h1
  · unfold b64chr
    rw [List.getD_eq_default]
    · decide
    · have hlen : b64alphabet.data.length = 64 := by decide
      omega

theorem b64encode_no_space (s : String) : ' ' ∉ (b64encodeStr s).data := by
  intro hm
  unfold b64encodeStr at hm
  rcases List.mem_map.mp hm with ⟨n, _, hn⟩
  exact b64chr_ne_space n hn

theorem sextetsOf_ne_nil : ∀ l : List Nat, l ≠ [] → b64sextetsOf l ≠ []
  | [], h => absurd rfl h
  | [_], _ => by simp [b64sextetsOf]
  | [_, _], _ => by simp [b64sextetsOf]
  | _ :: _ :: _ :: _, _ => by simp [b64sextetsOf]

theorem b64encode_ne_empty (s : String) (h : s.data ≠ []) : b64encodeStr s ≠ "" := by
  intro e
  unfold b64encodeStr at e
  have hd : (String.mk ((b64sextetsOf (s.data.map Char.toNat)).map b64chr)).data = [] := by
    rw [e]
  simp only [List.map_eq_nil_iff] at hd
  exact sextetsOf_ne_nil _ (by simpa using h) hd

/-- `parseBasicAuth` on a well-formed `Basic` header with a non-empty
credential: the result is the base64-decoded credential destructured on
colons. -/
theorem parseBasicAuth_basic (cred : String) (hsp : ' ' ∉ cred.data)
    (hne : cred ≠ "") :
    parseBasicAuth (some ("Basic " ++ cred)) =
      ((jsSplit ':' (b64decodeStr cred)).get? 0,
       (jsSplit ':' (b64decodeStr cred)).get? 1) := by
  simp only [parseBasicAuth, jsSplit]
  have hdata : ("Basic " ++ cred).data = "Basic".data ++ ' ' :: cred.data := by
    rw [String.data_append]
    rfl
  rw [hdata, splitOnChar_append ' ' "Basic".data cred.data (by decide),
    splitOnChar_no_sep ' ' cred.data hsp]
  have hcred : String.mk cred.data = cred := rfl
  simp [hcred, hne]

/-- C4 counterexample: the claim says the decoded credential is split on
the *first* colon so the password is everything after it; the code
destructures `decoded.split(':')`, so for `user:pa:ss` the password is
`pa`, not `pa:ss`.  The claim also says a malformed header is an
authentication failure surfaced as `401`; the code returns empty
credentials instead and, when the configured authenticator then
resolves, the RPC request is served `200`. -/
theorem c4_counterexample :
    parseBasicAuth (some "Basic dXNlcjpwYTpzcw==") = (some "user", some "pa")
    ∧ b64decodeStr "dXNlcjpwYTpzcw==" = "user:pa:ss"
    ∧ (some "pa" : Option String) ≠ some "pa:ss"
    ∧ (handleService ⟨false, some (fun _ _ _ _ => Except.ok ())⟩
        { baseEnv with authHeader := some "Bogus zzz" }
        "r1" "/srv/repos/r1" "git-upload-pack").response
      = some ⟨200, some "application/x-git-upload-pack-result", false, true, ""⟩ :=
  ⟨by decide, by decide, by decide, rfl⟩

/-- C4 amended: with an authenticator configured, a missing header
yields `{username: none, password: none}`; a header whose first
space-separated part is not `Basic` or whose second part is missing or
empty also yields empty credentials (it is *not* an immediate `401`;
`401` arises only if the configured authenticator then rejects, and the
callback failure — not the header shape — is what is surfaced);
otherwise the second part is base64-decoded and destructured as
`[username, password] = decoded.split(':')`, so the password is the
text between the first and the second colon and anything after a second
colon is dropped. -/
theorem c4_amended (u p extra msg repositoryName repositoryPath : String)
    (hu : ':' ∉ u.data) (hp : ':' ∉ p.data)
    (hbu : ∀ c ∈ u.data, c.toNat < 256) (hbp : ∀ c ∈ p.data, c.toNat < 256)
    (hbe : ∀ c ∈ extra.data, c.toNat < 256) :
    parseBasicAuth none = (none, none)
    ∧ parseBasicAuth (some "Basic") = (none, none)
    ∧ parseBasicAuth (some "NotBasic xyz") = (none, none)
    ∧ parseBasicAuth (some ("Basic " ++ b64encodeStr (u ++ ":" ++ p)))
      = (some u, some p)
    ∧ parseBasicAuth (some ("Basic " ++ b64encodeStr (u ++ ":" ++ p ++ ":" ++ extra)))
      = (some u, some p)
    ∧ (handleService ⟨false, some (fun _ _ _ _ => Except.error msg)⟩
        { baseEnv with authHeader := some "NotBasic xyz" }
        repositoryName repositoryPath "git-upload-pack").response
      = some ⟨401, some "text/plain", true, false, "Authentication failed"⟩ := by
  have hdu : (u ++ ":" ++ p).data = u.data ++ ':' :: p.data := by
    rw [String.data_append, String.data_append]
    simp
  have hdu2 : (u ++ ":" ++ p ++ ":" ++ extra).data
      = u.data ++ ':' :: (p.data ++ ':' :: extra.data) := by
    rw [String.data_append, String.data_append, String.data_append, String.data_append]
    simp
  have hb1 : ∀ c ∈ (u ++ ":" ++ p).data, c.toNat < 256 := by
    rw [hdu]
    intro c hc
    rcases List.mem_append.mp hc with hc | hc
    · exact hbu c hc
    · rcases List.mem_cons.mp hc with rfl | hc
      · decide
      · exact hbp c hc
  have hb2 : ∀ c ∈ (u ++ ":" ++ p ++ ":" ++ extra).data, c.toNat < 256 := by
    rw [hdu2]
    intro c hc
    rcases List.mem_append.mp hc with hc | hc
    · exact hbu c hc
    · rcases List.mem_cons.mp hc with rfl | hc
      · decide
      · rcases List.mem_append.mp hc with hc | hc
        · exact hbp c hc
        · rcases List.mem_cons.mp hc with rfl | hc
          · decide
          · exact hbe c hc
  have hne1 : (u ++ ":" ++ p) ≠ "" := by
    intro e
    have : (u ++ ":" ++ p).data = [] := by rw [e]
    rw [hdu] at this
    simp at this
  have hne2 : (u ++ ":" ++ p ++ ":" ++ extra) ≠ "" := by
    intro e
    have : (u ++ ":" ++ p ++ ":" ++ extra).data = [] := by rw [e]
    rw [hdu2] at this
    simp at this
  refine ⟨rfl, rfl, by decide, ?_, ?_, rfl⟩
  · rw [parseBasicAuth_basic _ (b64encode_no_space _)
      (b64encode_ne_empty _ (by rw [hdu]; simp)),
      b64decode_encode _ hb1]
    unfold jsSplit
    rw [hdu, splitOnChar_append ':' u.data p.data hu,
      splitOnChar_no_sep ':' p.data hp]
    rfl
  · rw [parseBasicAuth_basic _ (b64encode_no_space _)
      (b64encode_ne_empty _ (by rw [hdu2]; simp)),
      b64decode_encode _ hb2]
    unfold jsSplit
    rw [hdu2, splitOnChar_append ':' u.data _ hu,
      splitOnChar_append ':' p.data _ hp]
    rfl

/-- Witness for C4 amended at `user`, `pa`, `ss`. -/
theorem c4_amended_witness :
    parseBasicAuth none = (none, none)
    ∧ parseBasicAuth (some "Basic") = (none, none)
    ∧ parseBasicAuth (some "NotBasic xyz") = (none, none)
    ∧ parseBasicAuth (some ("Basic " ++ b64encodeStr ("user" ++ ":" ++ "pa")))
      = (some "user", some "pa")
    ∧ parseBasicAuth (some ("Basic " ++ b64encodeStr ("user" ++ ":" ++ "pa" ++ ":" ++ "ss")))
      = (some "user", some "pa")
    ∧ (handleService ⟨false, some (fun _ _ _ _ => Except.error "denied")⟩
        { baseEnv with authHeader := some "NotBasic xyz" }
        "r1" "/srv/repos/r1" "git-upload-pack").response
      = some ⟨401, some "text/plain", true, false, "Authentication failed"⟩ :=
  c4_amended "user" "pa" "ss" "denied" "r1" "/srv/repos/r1"
    (by decide) (by decide) (by decide) (by decide) (by decide)

/-! ## Lemmas for the tag sniffer (C6) -/

theorem takeWhile_ext (p : Char → Bool) (xs : List Char) (y : Char) (ys : List Char)
    (h1 : ∀ c ∈ xs, p c = true) (h2 : p y = false) :
    (xs ++ y :: ys).takeWhile p = xs := by
  induction xs with
  | nil => simp [List.takeWhile_cons, h2]
  | cons c cs ih =>
    have hc := h1 c (by simp)
    simp [List.takeWhile_cons, hc, ih (fun d hd => h1 d (by simp [hd]))]

theorem dropWhile_ext (p : Char → Bool) (xs : List Char) (y : Char) (ys : List Char)
    (h1 : ∀ c ∈ xs, p c = true) (h2 : p y = false) :
    (xs ++ y :: ys).dropWhile p = y :: ys := by
  induction xs with
  | nil => simp [List.dropWhile_cons, h2]
  | cons c cs ih =>
    have hc := h1 c (by simp)
    simp [List.dropWhile_cons, hc, ih (fun d hd => h1 d (by simp [hd]))]

theorem isPrefixOf_append_self (l t : List Char) : l.isPrefixOf (l ++ t) = true := by
  induction l with
  | nil => simp [List.isPrefixOf]
  | cons c cs ih => simp [List.isPrefixOf, ih]

theorem lazyScan_append (ver : List Char) (rest : List Char)
    (hsp : ' ' ∉ ver) (hnl : '\n' ∉ ver) (h00 : noDoubleZero ver = true) :
    lazyScan (ver ++ ' ' :: rest) = some (ver, rest) := by
  induction ver with
  | nil => rfl
  | cons c cs ih =>
    have hc1 : ¬ c = ' ' := fun e => hsp (e ▸ List.mem_cons_self c cs)
    have hc3 : ¬ c = '\n' := fun e => hnl (e ▸ List.mem_cons_self c cs)
    have hc2 : ¬ (c = '0' ∧ (cs ++ ' ' :: rest).head? = some '0') := by
      rintro ⟨rfl, hh⟩
      cases cs with
      | nil => simp at hh
      | cons d ds =>
        simp only [List.cons_append, List.head?_cons, Option.some.injEq] at hh
        have hpair := (Bool.and_eq_true _ _ |>.mp h00).1
        rw [hh] at hpair
        simp at hpair
    have htail : noDoubleZero cs = true := by
      cases cs with
      | nil => rfl
      | cons d ds => exact (Bool.and_eq_true _ _ |>.mp h00).2
    rw [List.cons_append, lazyScan, if_neg hc1, if_neg hc2, if_neg hc3,
      ih (fun hm => hsp (List.mem_cons_of_mem c hm))
        (fun hm => hnl (List.mem_cons_of_mem c hm)) htail]

theorem tryMatchAt_cmd (old new ver : List Char)
    (ho : old ≠ []) (hoh : ∀ c ∈ old, isHexDigit c = true)
    (hn : new ≠ []) (hnh : ∀ c ∈ new, isHexDigit c = true)
    (hsp : ' ' ∉ ver) (hnl : '\n' ∉ ver)
    (h00 : noDoubleZero ver = true) :
    tryMatchAt (old ++ ' ' :: (new ++ ' ' :: ("refs/tags/".data ++ (ver ++ ' ' :: []))))
      = some (String.mk old, String.mk new, String.mk ver, []) := by
  have e1 := takeWhile_ext isHexDigit old ' '
    (new ++ ' ' :: ("refs/tags/".data ++ (ver ++ ' ' :: []))) hoh (by decide)
  have e2 : expectChar ' '
      ((old ++ ' ' :: (new ++ ' ' :: ("refs/tags/".data ++ (ver ++ ' ' :: [])))).dropWhile isHexDigit)
      = some (new ++ ' ' :: ("refs/tags/".data ++ (ver ++ ' ' :: []))) := by
    rw [dropWhile_ext isHexDigit old ' '
      (new ++ ' ' :: ("refs/tags/".data ++ (ver ++ ' ' :: []))) hoh (by decide)]
    rfl
  have e3 := takeWhile_ext isHexDigit new ' '
    ("refs/tags/".data ++ (ver ++ ' ' :: [])) hnh (by decide)
  have e4 : expectChar ' '
      ((new ++ ' ' :: ("refs/tags/".data ++ (ver ++ ' ' :: []))).dropWhile isHexDigit)
      = some ("refs/tags/".data ++ (ver ++ ' ' :: [])) := by
    rw [dropWhile_ext isHexDigit new ' '
      ("refs/tags/".data ++ (ver ++ ' ' :: [])) hnh (by decide)]
    rfl
  have e5 := isPrefixOf_append_self "refs/tags/".data (ver ++ ' ' :: [])
  have e6 : ("refs/tags/".data ++ (ver ++ ' ' :: [])).drop 10 = ver ++ ' ' :: [] := by
    have h10 : ("refs/tags/".data).length = 10 := by decide
    rw [← h10, List.drop_left]
  have e7 := lazyScan_append ver [] hsp hnl h00
  unfold tryMatchAt
  rw [e1, if_neg ho, e2]
  simp only [Option.some_bind]
  rw [e3, if_neg hn, e4]
  simp only [Option.some_bind]
  rw [e5]
  simp only [if_true]
  rw [e6, e7]
  simp only [Option.some_bind]

theorem searchTagsAux_nil (fuel : Nat) : searchTagsAux fuel [] = [] := by
  cases fuel <;> rfl

theorem searchTagsAux_succ (k : Nat) (s : List Char) :
    searchTagsAux (k + 1) s
      = match tryMatchAt s with
        | some (o, n, v, rest) => (o, n, v) :: searchTagsAux k rest
        | none =>
          match s with
          | [] => []
          | _ :: t => searchTagsAux k t := rfl

theorem searchTagsAux_pos (cmd : List Char) (o n v : String)
    (h : tryMatchAt cmd = some (o, n, v, [])) (fuel : Nat) (hf : fuel ≠ 0) :
    searchTagsAux fuel cmd = [(o, n, v)] := by
  cases fuel with
  | zero => exact absurd rfl hf
  | succ k =>
    rw [searchTagsAux_succ, h]
    simp [searchTagsAux_nil]

theorem findTagMatches_cmd (old new ver : List Char)
    (ho : old ≠ []) (hoh : ∀ c ∈ old, isHexDigit c = true)
    (hn : new ≠ []) (hnh : ∀ c ∈ new, isHexDigit c = true)
    (hsp : ' ' ∉ ver) (hnl : '\n' ∉ ver)
    (h00 : noDoubleZero ver = true) :
    findTagMatches (String.mk (old ++ ' ' :: (new ++ ' ' :: ("refs/tags/".data ++ (ver ++ ' ' :: [])))))
      = [(String.mk old, String.mk new, String.mk ver)] := by
  unfold findTagMatches
  exact searchTagsAux_pos _ _ _ _
    (tryMatchAt_cmd old new ver ho hoh hn hnh hsp hnl h00) _
    (by simp)

/-- C6 counterexample: the claim says a `tag` event fires iff `newhex`
is non-zero, and that a NUL terminates the command; the code emits
whenever the regex matches with non-empty captures (so an all-zero
`newhex` — a tag deletion — still emits), and its terminator is a space
or the literal two-character substring `00`, so a command followed only
by a NUL yields no event at all. -/
theorem c6_counterexample :
    sniffChunk "r3" "a 0000000000000000000000000000000000000000 refs/tags/v1.0.1 "
      = [⟨"r3", "0000000000000000000000000000000000000000", "v1.0.1"⟩]
    ∧ (∀ c ∈ ("0000000000000000000000000000000000000000" : String).data, c = '0')
    ∧ sniffChunk "r3" "a b refs/tags/v9\x00" = [] :=
  ⟨by decide, by decide, by decide⟩

/-- C6 amended: during a push, for a command
`<oldhex> <newhex> refs/tags/<name>` whose terminator is a space
(the code's terminators are a space or the literal substring `00`, not
a NUL), a `tag` event `{repo, commit: newhex, version: name}` is
emitted whenever the hex fields and the name are non-empty — in
particular also when `newhex` is all zeros; the tag descriptor's
`accept` is a no-op and `reject` only reports an error event, so
neither gates the push. -/
theorem c6_amended (repositoryName : String) (old new ver : List Char)
    (ho : old ≠ []) (hoh : ∀ c ∈ old, isHexDigit c = true)
    (hn : new ≠ []) (hnh : ∀ c ∈ new, isHexDigit c = true)
    (hv : ver ≠ []) (hsp : ' ' ∉ ver) (hnl : '\n' ∉ ver)
    (h00 : noDoubleZero ver = true) :
    sniffChunk repositoryName
        (String.mk (old ++ ' ' :: (new ++ ' ' :: ("refs/tags/".data ++ (ver ++ ' ' :: [])))))
      = [⟨repositoryName, String.mk new, stripTrailingNul (String.mk ver)⟩]
    ∧ tagAcceptEvents = []
    ∧ (∀ m, tagRejectEvents m = ["Tag rejected: " ++ m]) := by
  refine ⟨?_, rfl, fun _ => rfl⟩
  unfold sniffChunk
  rw [findTagMatches_cmd old new ver ho hoh hn hnh hsp hnl h00]
  have h1 : (String.mk old) ≠ "" := fun e => ho (congrArg String.data e)
  have h2 : (String.mk new) ≠ "" := fun e => hn (congrArg String.data e)
  have h3 : (String.mk ver) ≠ "" := fun e => hv (congrArg String.data e)
  simp [h1, h2, h3]

/-- Witness for C6 amended: an all-zero `newhex` (a tag deletion) still
emits the event. -/
theorem c6_amended_witness :
    sniffChunk "r3"
        (String.mk ("a".data ++ ' ' ::
          ("0000000000000000000000000000000000000000".data ++ ' ' ::
            ("refs/tags/".data ++ ("v1.0.0".data ++ ' ' :: [])))))
      = [⟨"r3", String.mk "0000000000000000000000000000000000000000".data,
          stripTrailingNul (String.mk "v1.0.0".data)⟩]
    ∧ tagAcceptEvents = []
    ∧ (∀ m, tagRejectEvents m = ["Tag rejected: " ++ m]) :=
  c6_amended "r3" "a".data "0000000000000000000000000000000000000000".data
    "v1.0.0".data (by decide) (by decide) (by decide) (by decide) (by decide)
    (by decide) (by decide) (by decide)

end GitSrv
